import Mathlib

/-!
Shallow embedding of the goose-hacknight-backend server (server.js): the
registration-config loader, the OpenRouter key-service client with its
pagination loop, and the request handlers for the invite and admin routes.
The upstream key service itself is a black-box HTTP dependency; its observable
contract (pages served per offset, disabled keys omitted unless
`include_disabled=true` is requested, creation echoing the requested name) is
modelled explicitly so the handlers can be run against explicit upstream
states, and every handler additionally returns the trace of outbound calls it
made.
-/

namespace Goose

/-- A JavaScript/JSON value as the server handles them: results of
`JSON.parse`, request bodies and response bodies. `undefined` models JavaScript
`undefined` (in particular a missing object property). Numbers are modelled as
integers; the code only manipulates integer credit limits. -/
inductive JsVal where
  | undefined
  | null
  | bool (b : Bool)
  | num (n : Int)
  | str (s : String)
  | arr (items : List JsVal)
  | obj (fields : List (String × JsVal))

/-- Property access `v.name`: the named field of an object, `undefined` otherwise
(property access on a primitive yields undefined in JavaScript; the null case,
which would throw, is not reached by the modelled routes). -/
def JsVal.getField : JsVal → String → JsVal
  | .obj fields, n =>
    match fields.find? (fun p => p.1 == n) with
    | some p => p.2
    | none => .undefined
  | _, _ => .undefined

/-- JavaScript truthiness, as used by `if (!config.registrationEnabled)` and
`if (!email)`. -/
def JsVal.truthy : JsVal → Bool
  | .undefined => false
  | .null => false
  | .bool b => b
  | .num n => n != 0
  | .str s => s != ""
  | .arr _ => true
  | .obj _ => true

def JsVal.isUndefined : JsVal → Bool
  | .undefined => true
  | _ => false

def JsVal.isBool : JsVal → Bool
  | .bool _ => true
  | _ => false

/-- Template-literal coercion of a value to a string; only the string case is
exercised by the modelled routes. -/
def JsVal.toStr : JsVal → String
  | .undefined => "undefined"
  | .null => "null"
  | .bool b => if b then "true" else "false"
  | .num n => toString n
  | .str s => s
  | .arr _ => ""
  | .obj _ => "[object Object]"

/-- The state of `config.json` on disk, as far as `loadConfig` can observe it:
missing, present but not valid JSON, or present and parsing to a value. -/
inductive ConfigFile where
  | absent
  | unparseable
  | parsed (v : JsVal)

/-- The default configuration written and returned when the file is missing or
unreadable: `{ registrationEnabled: false }`. -/
def defaultConfig : JsVal := .obj [("registrationEnabled", .bool false)]

/-- `loadConfig()` from server.js. Returns the loaded value together with the
file state afterwards: a missing file is created with the default content; an
unparseable file makes `JSON.parse` throw, so the catch branch returns the
default and leaves the file as it was; a parseable file is returned as
parsed. -/
def loadConfig : ConfigFile → JsVal × ConfigFile
  | .absent => (defaultConfig, .parsed defaultConfig)
  | .unparseable => (defaultConfig, .unparseable)
  | .parsed v => (v, .parsed v)

/-- An HTTP response: status code and JSON object body. The body is the field
list after serialization; `res.json` (via `JSON.stringify`) drops fields whose
value is undefined. -/
structure Resp where
  status : Nat
  body : List (String × JsVal)

/-- `JSON.stringify` on an object drops properties whose value is
undefined. -/
def serializeBody (fields : List (String × JsVal)) : List (String × JsVal) :=
  fields.filter (fun p => !p.2.isUndefined)

/-- Build a response as `res.status(s).json(fields)` does. -/
def jsonResp (status : Nat) (fields : List (String × JsVal)) : Resp :=
  ⟨status, serializeBody fields⟩

/-- Look a field up in a response body; `undefined` when the field was dropped or
never present. -/
def Resp.field (r : Resp) (n : String) : JsVal :=
  match r.body.find? (fun p => p.1 == n) with
  | some p => p.2
  | none => .undefined

/-- `GET /api/registration-status`: loads the config and echoes its
`registrationEnabled` property, unvalidated. Returns the response and the
config-file state afterwards. -/
def registrationStatus (fs : ConfigFile) : Resp × ConfigFile :=
  (jsonResp 200
    [("registrationEnabled", (loadConfig fs).1.getField "registrationEnabled")],
   (loadConfig fs).2)

/-- One provisioned key as the upstream listing reports it: display name,
stable hash identifier, and whether it has been disabled. -/
structure KeyInfo where
  name : String
  hash : String
  disabled : Bool
deriving DecidableEq, Repr

/-- The upstream key service's state: the list of existing keys, in the order
its listing endpoint reports them. -/
structure Upstream where
  keys : List KeyInfo
deriving DecidableEq, Repr

/-- One outbound call to the upstream service, for the handlers' call
traces. -/
inductive Call where
  | listPage (includeDisabled : Bool) (offset : Nat)
  | create (name label : String) (limit : Int)
  | del (hash : String)
  | disable (hash : String)
deriving DecidableEq, Repr

def Call.isCreate : Call → Bool
  | .create _ _ _ => true
  | _ => false

/-- The key name derived from an email: `Goose Hacknight - ${email}`. -/
def expectedName (email : String) : String := "Goose Hacknight - " ++ email

/-- The keys the upstream listing serves when `include_disabled` is not
requested, as in `checkExistingEmail`: disabled keys are omitted. -/
def visibleKeys (u : Upstream) : List KeyInfo :=
  u.keys.filter (fun k => !k.disabled)

/-- One upstream answer to a paged `GET /keys` request: a page of keys
(`data.data || []`), or a non-ok HTTP response carrying its statusText. -/
inductive PageResp where
  | ok (keys : List KeyInfo)
  | fail (statusText : String)
deriving DecidableEq, Repr

/-- The pagination loop shared by `checkExistingEmail` and `listKeys`:
starting at `offset`, request a page, append it, stop when a page has fewer
than 100 items, otherwise advance the offset by 100 and continue. `pages` are
the upstream's successive answers (an exhausted stub answers with an empty
page); `emsg` is the message prefix of the error thrown on a non-ok response.
Returns the accumulated keys (or the thrown error) and the list of offsets
requested. -/
def fetchAllPages (emsg : String) :
    List PageResp → Nat → Except String (List KeyInfo) × List Nat
  | [], offset => (.ok [], [offset])
  | .fail st :: _, offset => (.error (emsg ++ st), [offset])
  | .ok p :: rest, offset =>
    if p.length < 100 then (.ok p, [offset])
    else
      match fetchAllPages emsg rest (offset + 100) with
      | (.ok ks, offs) => (.ok (p ++ ks), offset :: offs)
      | (.error e, offs) => (.error e, offset :: offs)

/-- The pages a consistent upstream serves for the successive offsets 0, 100,
200, …: the key list split into chunks of 100, in order. -/
def chunk100 (ks : List KeyInfo) : List (List KeyInfo) :=
  if h : ks = [] then []
  else ks.take 100 :: chunk100 (ks.drop 100)
termination_by ks.length
decreasing_by
  simp only [List.length_drop]
  have : 0 < ks.length := List.length_pos.mpr h
  omega

/-- A consistent upstream stub serving a fixed key list page by page. -/
def servePages (ks : List KeyInfo) : List PageResp :=
  (chunk100 ks).map .ok

/-- `checkExistingEmail(email)`: page through the listing (without
`include_disabled`, so disabled keys are not served) and report whether some
returned key's name equals `"Goose Hacknight - " + email` exactly. Returns
the result (or the propagated fetch error) and the trace of listing calls. -/
def checkExistingEmail (u : Upstream) (email : String) :
    Except String Bool × List Call :=
  match fetchAllPages "Failed to fetch keys: " (servePages (visibleKeys u)) 0 with
  | (.ok allKeys, offs) =>
    (.ok (allKeys.any (fun k => k.name == expectedName email)),
      offs.map (Call.listPage false))
  | (.error e, offs) => (.error e, offs.map (Call.listPage false))

/-- `listKeys()`: page through the listing with `include_disabled=true` (so
every key is served) and return the concatenation of the pages, with the
trace of listing calls. -/
def listKeys (u : Upstream) : Except String (List KeyInfo) × List Call :=
  match fetchAllPages "Failed to list keys: " (servePages u.keys) 0 with
  | (r, offs) => (r, offs.map (Call.listPage true))

/-- The environment variables the handlers read: the admin shared secret and
the preset credit limit (`none` when `OPENROUTER_PRESET_CREDITS` is unset or
does not parse to a number). -/
structure Env where
  adminSecretToken : Option String
  presetCredits : Option Int
deriving DecidableEq, Repr

/-- `parseInt(process.env.OPENROUTER_PRESET_CREDITS) || 5`: the preset when it
parses to a nonzero number, otherwise 5 (NaN and 0 are both falsy). -/
def effLimit (env : Env) : Int :=
  match env.presetCredits with
  | some n => if n == 0 then 5 else n
  | none => 5

/-- `email.replace('@', '-at-')`: JavaScript's `String.replace` with a string
pattern replaces only the first occurrence. -/
def replaceFirstAt (email : String) : String :=
  match email.splitOn "@" with
  | [] => email
  | [s] => s
  | s :: rest => s ++ "-at-" ++ String.intercalate "@" rest

/-- The upstream's answer to a key-creation request: the secret key material
and the new key's hash, or a failure whose message the handler throws. -/
inductive CreateResp where
  | ok (key hash : String)
  | fail (msg : String)
deriving DecidableEq, Repr

/-- The object `createOpenRouterKey` returns on success. -/
structure KeyData where
  key : String
  keyHash : String
  limit : Int
  name : String
  disabled : Bool
deriving DecidableEq, Repr

/-- `createOpenRouterKey(email)`: POST a creation request with the derived
name, label and limit. On success the upstream echoes the requested name and
limit back and the key starts enabled. Returns the result and the trace of
the creation call. -/
def createOpenRouterKey (env : Env) (cr : CreateResp) (email : String) :
    Except String KeyData × List Call :=
  let c := Call.create (expectedName email) (replaceFirstAt email) (effLimit env)
  match cr with
  | .ok key hash => (.ok ⟨key, hash, effLimit env, expectedName email, false⟩, [c])
  | .fail msg => (.error msg, [c])

/-- The full effect of one `POST /api/invite` request: the response, the
upstream state afterwards, the trace of upstream calls, and the config-file
state afterwards. -/
structure InviteOutcome where
  resp : Resp
  upstream : Upstream
  calls : List Call
  configFile : ConfigFile

/-- `POST /api/invite`: load the config and refuse with 403 when registration
is not enabled; refuse with 400 when the body has no truthy `email`; page
through the listing and refuse with 400 when the derived name already exists;
otherwise create a key (appended to the upstream state on success) and answer
200 with the returned key material; a thrown error is caught and answered as
a 500. `cr` is the upstream's answer to the creation request, consulted only
if the handler reaches the creation step. -/
def invite (env : Env) (cfg : ConfigFile) (u : Upstream) (body : JsVal)
    (cr : CreateResp) : InviteOutcome :=
  if !((loadConfig cfg).1.getField "registrationEnabled").truthy then
    ⟨jsonResp 403 [("success", .bool false),
      ("message", .str "Registration is currently closed")], u, [], (loadConfig cfg).2⟩
  else if !(body.getField "email").truthy then
    ⟨jsonResp 400 [("success", .bool false),
      ("message", .str "Email is required")], u, [], (loadConfig cfg).2⟩
  else
    match checkExistingEmail u (body.getField "email").toStr with
    | (.error e, calls) =>
      ⟨jsonResp 500 [("success", .bool false),
        ("message", .str "Failed to create API key"), ("error", .str e)],
        u, calls, (loadConfig cfg).2⟩
    | (.ok true, calls) =>
      ⟨jsonResp 400 [("success", .bool false),
        ("message", .str "This email has already been registered for the hackathon.")],
        u, calls, (loadConfig cfg).2⟩
    | (.ok false, calls) =>
      match createOpenRouterKey env cr (body.getField "email").toStr with
      | (.ok kd, calls2) =>
        ⟨jsonResp 200 [("success", .bool true), ("apiKey", .str kd.key),
          ("keyHash", .str kd.keyHash), ("limit", .num kd.limit),
          ("name", .str kd.name), ("disabled", .bool kd.disabled),
          ("message", .str "Your OpenRouter API key has been created successfully.")],
          ⟨u.keys ++ [⟨expectedName (body.getField "email").toStr, kd.keyHash, false⟩]⟩,
          calls ++ calls2, (loadConfig cfg).2⟩
      | (.error e, calls2) =>
        ⟨jsonResp 500 [("success", .bool false),
          ("message", .str "Failed to create API key"), ("error", .str e)],
          u, calls ++ calls2, (loadConfig cfg).2⟩

/-- The 401 response produced by the adminAuth middleware. -/
def unauthorizedResp : Resp :=
  jsonResp 401 [("success", .bool false), ("message", .str "Unauthorized access")]

/-- The adminAuth middleware's test: the `x-admin-token` header (`none` when
absent) must be exactly equal to `process.env.ADMIN_SECRET_TOKEN`. -/
def adminAuth (env : Env) (token : Option String) : Bool :=
  token == env.adminSecretToken

def keyToJs (k : KeyInfo) : JsVal :=
  .obj [("name", .str k.name), ("hash", .str k.hash), ("disabled", .bool k.disabled)]

/-- The `GET /api/admin/keys` handler body (behind the middleware): the merged
listing as `{data: [...]}`, or a 500 on a listing failure. -/
def adminKeysHandler (u : Upstream) : Resp × List Call :=
  match listKeys u with
  | (.ok ks, calls) => (jsonResp 200 [("data", .arr (ks.map keyToJs))], calls)
  | (.error e, calls) =>
    (jsonResp 500 [("success", .bool false), ("message", .str "Failed to list keys"),
      ("error", .str e)], calls)

/-- `GET /api/admin/keys` with the adminAuth middleware in front. -/
def adminKeys (env : Env) (token : Option String) (u : Upstream) :
    Resp × List Call :=
  if adminAuth env token then adminKeysHandler u else (unauthorizedResp, [])

def exOk : Except String Unit → Bool
  | .ok _ => true
  | .error _ => false

/-- `deleteKey(hash)`: DELETE the key; on a non-ok response throw
`Failed to delete key: ${statusText}`. `ans` is the upstream's answer, the
statusText on failure. -/
def deleteKey (ans : Except String Unit) (hash : String) :
    Except String Bool × List Call :=
  match ans with
  | .ok _ => (.ok true, [.del hash])
  | .error st => (.error ("Failed to delete key: " ++ st), [.del hash])

def errOf : Except String Bool → Option String
  | .error e => some e
  | .ok _ => none

/-- The `POST /api/admin/keys/delete-all` handler body: list every key, start
all deletes (`Promise.all` issues every call), remove the keys whose delete
succeeded from the upstream state, then report one success message counting
all listed keys — or, if any single delete failed, one 500 carrying only the
first failure's message, with no per-key report. `ans hash` is the upstream's
answer to deleting `hash`. -/
def deleteAllHandler (u : Upstream) (ans : String → Except String Unit) :
    Resp × Upstream × List Call :=
  match listKeys u with
  | (.error e, calls) =>
    (jsonResp 500 [("success", .bool false), ("message", .str "Failed to delete keys"),
      ("error", .str e)], u, calls)
  | (.ok ks, calls) =>
    let u' : Upstream := ⟨u.keys.filter (fun k => !exOk (ans k.hash))⟩
    let allCalls := calls ++ ks.map (fun k => Call.del k.hash)
    match (ks.filterMap (fun k => errOf (deleteKey (ans k.hash) k.hash).1)).head? with
    | none =>
      (jsonResp 200 [("success", .bool true),
        ("message", .str ("Successfully deleted " ++ toString ks.length ++ " keys"))],
        u', allCalls)
    | some e =>
      (jsonResp 500 [("success", .bool false), ("message", .str "Failed to delete keys"),
        ("error", .str e)], u', allCalls)

/-- `POST /api/admin/keys/delete-all` with the adminAuth middleware in
front. -/
def deleteAll (env : Env) (token : Option String) (u : Upstream)
    (ans : String → Except String Unit) : Resp × Upstream × List Call :=
  if adminAuth env token then deleteAllHandler u ans else (unauthorizedResp, u, [])

/-- `disableKey(hash)`: PATCH `{disabled: true}` onto the key; on a non-ok
response throw `Failed to disable key: ${statusText}`. -/
def disableKey (ans : Except String Unit) (hash : String) :
    Except String Unit × List Call :=
  match ans with
  | .ok _ => (.ok (), [.disable hash])
  | .error st => (.error ("Failed to disable key: " ++ st), [.disable hash])

/-- The `POST /api/admin/keys/disable-all` handler body: list every key,
attempt to disable each one with per-key failures caught (a failed key keeps
its previous state), re-list, and answer 200 with the fresh listing and a
message counting every processed key. -/
def disableAllHandler (u : Upstream) (ans : String → Except String Unit) :
    Resp × Upstream × List Call :=
  match listKeys u with
  | (.error e, calls) =>
    (jsonResp 500 [("success", .bool false), ("message", .str "Failed to disable keys"),
      ("error", .str e)], u, calls)
  | (.ok ks, calls) =>
    let disCalls := ks.map (fun k => Call.disable k.hash)
    let u' : Upstream :=
      ⟨u.keys.map (fun k => if exOk (ans k.hash) then { k with disabled := true } else k)⟩
    match listKeys u' with
    | (.ok ks2, calls2) =>
      (jsonResp 200 [("success", .bool true),
        ("message", .str ("Successfully processed " ++ toString ks.length ++ " keys")),
        ("data", .arr (ks2.map keyToJs))], u', calls ++ disCalls ++ calls2)
    | (.error e, calls2) =>
      (jsonResp 500 [("success", .bool false), ("message", .str "Failed to disable keys"),
        ("error", .str e)], u', calls ++ disCalls ++ calls2)

/-- `POST /api/admin/keys/disable-all` with the adminAuth middleware in
front. -/
def disableAll (env : Env) (token : Option String) (u : Upstream)
    (ans : String → Except String Unit) : Resp × Upstream × List Call :=
  if adminAuth env token then disableAllHandler u ans else (unauthorizedResp, u, [])

/-- The number of keys in the upstream state whose name is the one derived
from `email`. -/
def countFor (u : Upstream) (email : String) : Nat :=
  (u.keys.filter (fun k => k.name == expectedName email)).length

/-- The invariant stated in §3 of the spec: at most one provisioned key per
email. -/
def atMostOnePerEmail (u : Upstream) : Prop :=
  ∀ email, countFor u email ≤ 1

/-- The number of enabled keys whose name is the one derived from `email`. -/
def countEnabledFor (u : Upstream) (email : String) : Nat :=
  ((visibleKeys u).filter (fun k => k.name == expectedName email)).length

/-- The weakened invariant that the code actually maintains: at most one
enabled provisioned key per email. -/
def atMostOneEnabledPerEmail (u : Upstream) : Prop :=
  ∀ email, countEnabledFor u email ≤ 1

/-- Run a sequence of invite requests sequentially, threading the upstream
and config-file state; each element carries the request body and the
upstream's answer to the creation request. -/
def runInvites (env : Env) : ConfigFile → Upstream → List (JsVal × CreateResp) → Upstream
  | _, u, [] => u
  | cfg, u, (body, cr) :: rest =>
    let o := invite env cfg u body cr
    runInvites env o.configFile o.upstream rest

/-! Basic lemmas about the pagination loop run against a consistent stub. -/

theorem chunk100_nil : chunk100 [] = [] := by
  rw [chunk100]
  simp

theorem chunk100_cons (ks : List KeyInfo) (h : ks ≠ []) :
    chunk100 ks = ks.take 100 :: chunk100 (ks.drop 100) := by
  rw [chunk100]
  simp [h]

/-- Against a consistent upstream serving a fixed key list page by page, the
pagination loop returns exactly that list. -/
theorem fetchAllPages_servePages (emsg : String) (ks : List KeyInfo) (off : Nat) :
    (fetchAllPages emsg (servePages ks) off).1 = .ok ks := by
  by_cases h : ks = []
  · subst h
    simp [servePages, chunk100_nil, fetchAllPages]
  · rw [servePages, chunk100_cons ks h, List.map_cons]
    by_cases hlt : ks.length < 100
    · have ht : ks.take 100 = ks := List.take_of_length_le (by omega)
      rw [ht]
      simp [fetchAllPages, hlt]
    · have hc : ¬ (ks.take 100).length < 100 := by
        simp only [List.length_take]
        omega
      have ih := fetchAllPages_servePages emsg (ks.drop 100) (off + 100)
      rw [servePages] at ih
      rcases hp : fetchAllPages emsg ((chunk100 (ks.drop 100)).map PageResp.ok) (off + 100)
        with ⟨r, offs⟩
      rw [hp] at ih
      simp only at ih
      subst ih
      simp only [fetchAllPages, hc, if_neg, hp]
      simp [List.take_append_drop]
termination_by ks.length
decreasing_by
  have : 0 < ks.length := List.length_pos.mpr h
  simp only [List.length_drop]
  omega

theorem listKeys_fst (u : Upstream) : (listKeys u).1 = .ok u.keys := by
  unfold listKeys
  have h := fetchAllPages_servePages "Failed to list keys: " u.keys 0
  rcases hp : fetchAllPages "Failed to list keys: " (servePages u.keys) 0 with ⟨r, offs⟩
  rw [hp] at h
  simp only at h
  subst h
  simp

/-- The duplicate check computes exactly: some key among the keys visible to
the listing without `include_disabled` has the derived name. -/
theorem checkExistingEmail_fst (u : Upstream) (email : String) :
    (checkExistingEmail u email).1 =
      .ok ((visibleKeys u).any (fun k => k.name == expectedName email)) := by
  unfold checkExistingEmail
  have h := fetchAllPages_servePages "Failed to fetch keys: " (visibleKeys u) 0
  rcases hp : fetchAllPages "Failed to fetch keys: " (servePages (visibleKeys u)) 0
    with ⟨r, offs⟩
  rw [hp] at h
  simp only at h
  subst h
  simp

/-- The duplicate check only issues listing calls, never a creation. -/
theorem checkExistingEmail_calls (u : Upstream) (email : String) :
    ∀ c ∈ (checkExistingEmail u email).2, c.isCreate = false := by
  unfold checkExistingEmail
  rcases hp : fetchAllPages "Failed to fetch keys: " (servePages (visibleKeys u)) 0
    with ⟨r, offs⟩
  rcases r with ks | e <;>
    · intro c hc
      simp only [List.mem_map] at hc
      obtain ⟨o, _, rfl⟩ := hc
      rfl

/-! Shape lemmas for the three main branches of the invite handler. -/

/-- When the loaded config does not enable registration, the invite handler
answers 403 before touching anything else. -/
theorem invite_eq_of_disabled (env : Env) (cfg : ConfigFile) (u : Upstream)
    (body : JsVal) (cr : CreateResp)
    (h : ((loadConfig cfg).1.getField "registrationEnabled").truthy = false) :
    invite env cfg u body cr =
      ⟨jsonResp 403 [("success", .bool false),
        ("message", .str "Registration is currently closed")], u, [],
        (loadConfig cfg).2⟩ := by
  unfold invite
  rw [h]
  rfl

/-- When registration is enabled and a visible key already carries the derived
name, the invite handler answers 400 after the duplicate-check listing. -/
theorem invite_eq_of_dup (env : Env) (cfg : ConfigFile) (u : Upstream)
    (body : JsVal) (cr : CreateResp) (e : String)
    (henabled : ((loadConfig cfg).1.getField "registrationEnabled").truthy = true)
    (hemail : body.getField "email" = .str e) (hne : e ≠ "")
    (hdup : (visibleKeys u).any (fun k => k.name == expectedName e) = true) :
    invite env cfg u body cr =
      ⟨jsonResp 400 [("success", .bool false),
        ("message", .str "This email has already been registered for the hackathon.")],
        u, (checkExistingEmail u e).2, (loadConfig cfg).2⟩ := by
  unfold invite
  rw [henabled, hemail]
  have htr : (JsVal.str e).truthy = true := by
    simp [JsVal.truthy, hne]
  rw [htr]
  have hf := checkExistingEmail_fst u e
  rcases hc : checkExistingEmail u e with ⟨r, calls⟩
  rw [hc] at hf
  simp only at hf
  rw [hdup] at hf
  subst hf
  have hes : (JsVal.str e).toStr = e := rfl
  simp only [Bool.not_true, Bool.false_eq_true, if_false, hes, hc]

/-- When registration is enabled, the email is fresh among visible keys, and
the upstream creation succeeds, the invite handler answers 200 and appends
the new key to the upstream state. -/
theorem invite_eq_of_fresh (env : Env) (cfg : ConfigFile) (u : Upstream)
    (body : JsVal) (e secret hash : String)
    (henabled : ((loadConfig cfg).1.getField "registrationEnabled").truthy = true)
    (hemail : body.getField "email" = .str e) (hne : e ≠ "")
    (hfresh : (visibleKeys u).any (fun k => k.name == expectedName e) = false) :
    invite env cfg u body (.ok secret hash) =
      ⟨jsonResp 200 [("success", .bool true), ("apiKey", .str secret),
        ("keyHash", .str hash), ("limit", .num (effLimit env)),
        ("name", .str (expectedName e)), ("disabled", .bool false),
        ("message", .str "Your OpenRouter API key has been created successfully.")],
        ⟨u.keys ++ [⟨expectedName e, hash, false⟩]⟩,
        (checkExistingEmail u e).2 ++
          [Call.create (expectedName e) (replaceFirstAt e) (effLimit env)],
        (loadConfig cfg).2⟩ := by
  unfold invite
  rw [henabled, hemail]
  have htr : (JsVal.str e).truthy = true := by
    simp [JsVal.truthy, hne]
  rw [htr]
  have hf := checkExistingEmail_fst u e
  rcases hc : checkExistingEmail u e with ⟨r, calls⟩
  rw [hc] at hf
  simp only at hf
  rw [hfresh] at hf
  subst hf
  have hes : (JsVal.str e).toStr = e := rfl
  simp only [Bool.not_true, Bool.false_eq_true, if_false, hes, hc]
  rfl

/-- C1: for every configuration state whose loaded `registrationEnabled` is
`false`, `POST /api/invite` responds 403 with the fixed closed-registration
message, performs no upstream call at all (neither a duplicate-check listing
page nor a creation), and leaves the upstream state unchanged, regardless of
the request body. -/
theorem invite_closed_registration (env : Env) (cfg : ConfigFile) (u : Upstream)
    (body : JsVal) (cr : CreateResp)
    (h : (loadConfig cfg).1.getField "registrationEnabled" = .bool false) :
    (invite env cfg u body cr).resp.status = 403 ∧
    (invite env cfg u body cr).resp.field "message" =
      .str "Registration is currently closed" ∧
    (invite env cfg u body cr).calls = [] ∧
    (invite env cfg u body cr).upstream = u := by
  have hb := invite_eq_of_disabled env cfg u body cr (by rw [h]; rfl)
  rw [hb]
  exact ⟨rfl, rfl, rfl, rfl⟩

/-- Witness for C1 at a concrete closed-registration state: the config file is
absent, so the default disabled config is loaded. -/
theorem invite_closed_registration_witness :
    (loadConfig .absent).1.getField "registrationEnabled" = .bool false ∧
    ((invite ⟨none, none⟩ .absent ⟨[]⟩ .null (.fail "x")).resp.status = 403 ∧
     (invite ⟨none, none⟩ .absent ⟨[]⟩ .null (.fail "x")).resp.field "message" =
       .str "Registration is currently closed" ∧
     (invite ⟨none, none⟩ .absent ⟨[]⟩ .null (.fail "x")).calls = [] ∧
     (invite ⟨none, none⟩ .absent ⟨[]⟩ .null (.fail "x")).upstream = ⟨[]⟩) :=
  ⟨rfl, invite_closed_registration ⟨none, none⟩ .absent ⟨[]⟩ .null (.fail "x") rfl⟩

/-- C7: the config load operation is total over the modelled file states.
When the file is absent it writes and returns the default
`{registrationEnabled: false}`; when it is present but unparseable it returns
the default without raising; consequently `GET /api/registration-status` on
the missing-file state answers `{registrationEnabled: false}` and the default
config file exists afterwards. -/
theorem loadConfig_total :
    loadConfig .absent = (defaultConfig, .parsed defaultConfig) ∧
    loadConfig .unparseable = (defaultConfig, .unparseable) ∧
    (∀ v, loadConfig (.parsed v) = (v, .parsed v)) ∧
    (registrationStatus .absent).1.status = 200 ∧
    (registrationStatus .absent).1.body = [("registrationEnabled", .bool false)] ∧
    (registrationStatus .absent).2 = .parsed defaultConfig :=
  ⟨rfl, rfl, fun _ => rfl, rfl, rfl, rfl⟩

/-- C10 counterexample: the loaded config is echoed without schema
validation, so `registrationEnabled` in the response is not always a present
boolean. With a config file holding `{"registrationEnabled": 1}` the field is
echoed as the number 1; with a config file holding `{}` the field is
undefined and is dropped from the serialized body entirely. -/
theorem registrationStatus_not_boolean_cex :
    ((registrationStatus (.parsed (.obj [("registrationEnabled", .num 1)]))).1.field
      "registrationEnabled").isBool = false ∧
    (registrationStatus (.parsed (.obj [("registrationEnabled", .num 1)]))).1.field
      "registrationEnabled" = .num 1 ∧
    (registrationStatus (.parsed (.obj []))).1.body = [] :=
  ⟨rfl, rfl, rfl⟩

/-- C10 amended: `GET /api/registration-status` always answers 200 and echoes
the loaded config's `registrationEnabled` value without validation: whenever
that value is defined it is returned verbatim (a boolean only if the file
held one), and when it is undefined the field is dropped from the body; on
the absent and unparseable file states the default makes it the boolean
`false`. -/
theorem registrationStatus_echoes (fs : ConfigFile) (v : JsVal)
    (h : (loadConfig fs).1.getField "registrationEnabled" = v) :
    (registrationStatus fs).1.status = 200 ∧
    (v.isUndefined = false → (registrationStatus fs).1.field "registrationEnabled" = v) ∧
    (v.isUndefined = true → (registrationStatus fs).1.body = []) ∧
    (registrationStatus ConfigFile.absent).1.field "registrationEnabled" = .bool false ∧
    (registrationStatus ConfigFile.unparseable).1.field "registrationEnabled" =
      .bool false := by
  refine ⟨rfl, ?_, ?_, rfl, rfl⟩ <;>
    · intro hv
      simp only [registrationStatus, jsonResp, serializeBody, Resp.field, h]
      simp [List.filter, hv, List.find?]

/-- Witness for C10 amended at a concrete state: a parseable config file
holding the string "yes" in `registrationEnabled`, echoed verbatim. -/
theorem registrationStatus_echoes_witness :
    (loadConfig (.parsed (.obj [("registrationEnabled", .str "yes")]))).1.getField
      "registrationEnabled" = .str "yes" ∧
    ((registrationStatus (.parsed (.obj [("registrationEnabled", .str "yes")]))).1.status
        = 200 ∧
     ((JsVal.str "yes").isUndefined = false →
       (registrationStatus (.parsed (.obj [("registrationEnabled", .str "yes")]))).1.field
         "registrationEnabled" = .str "yes") ∧
     ((JsVal.str "yes").isUndefined = true →
       (registrationStatus (.parsed (.obj [("registrationEnabled", .str "yes")]))).1.body
         = []) ∧
     (registrationStatus ConfigFile.absent).1.field "registrationEnabled" = .bool false ∧
     (registrationStatus ConfigFile.unparseable).1.field "registrationEnabled" =
       .bool false) :=
  ⟨rfl, registrationStatus_echoes (.parsed (.obj [("registrationEnabled", .str "yes")]))
    (.str "yes") rfl⟩

/-- C4: against a stub upstream answering with pages of sizes 100, 100 and
37, the listing client issues exactly three paged requests, at offsets 0, 100
and 200, and returns the 237 items as the concatenation of the pages in
order. In general one round of the loop at offset `off` terminates exactly
when the page has fewer than 100 items, and otherwise requests the next page
at `off + 100`. -/
theorem pagination_loop (emsg : String) (p0 p1 p2 : List KeyInfo)
    (h0 : p0.length = 100) (h1 : p1.length = 100) (h2 : p2.length = 37) :
    fetchAllPages emsg [.ok p0, .ok p1, .ok p2] 0 =
      (.ok (p0 ++ p1 ++ p2), [0, 100, 200]) ∧
    (p0 ++ p1 ++ p2).length = 237 ∧
    (∀ p rest off, p.length < 100 →
      fetchAllPages emsg (.ok p :: rest) off = (.ok p, [off])) ∧
    (∀ p rest off, 100 ≤ p.length →
      (fetchAllPages emsg (.ok p :: rest) off).2 =
        off :: (fetchAllPages emsg rest (off + 100)).2) := by
  refine ⟨?_, ?_, ?_, ?_⟩
  · simp [fetchAllPages, h0, h1, h2]
  · simp [h0, h1, h2]
  · intro p rest off hp
    simp [fetchAllPages, hp]
  · intro p rest off hp
    have hc : ¬ p.length < 100 := by omega
    rcases hr : fetchAllPages emsg rest (off + 100) with ⟨r, offs⟩
    rcases r with ks | e <;> simp [fetchAllPages, hc, hr]

/-- Witness for C4 at concrete pages of the required sizes. -/
theorem pagination_loop_witness :
    (List.replicate 100 (⟨"n", "h", false⟩ : KeyInfo)).length = 100 ∧
    (List.replicate 37 (⟨"n", "h", false⟩ : KeyInfo)).length = 37 ∧
    (fetchAllPages "e" [.ok (List.replicate 100 (⟨"n", "h", false⟩ : KeyInfo)),
        .ok (List.replicate 100 (⟨"n", "h", false⟩ : KeyInfo)),
        .ok (List.replicate 37 (⟨"n", "h", false⟩ : KeyInfo))] 0 =
      (.ok (List.replicate 100 (⟨"n", "h", false⟩ : KeyInfo) ++
        List.replicate 100 (⟨"n", "h", false⟩ : KeyInfo) ++
        List.replicate 37 (⟨"n", "h", false⟩ : KeyInfo)), [0, 100, 200]) ∧
     (List.replicate 100 (⟨"n", "h", false⟩ : KeyInfo) ++
       List.replicate 100 (⟨"n", "h", false⟩ : KeyInfo) ++
       List.replicate 37 (⟨"n", "h", false⟩ : KeyInfo)).length = 237 ∧
     (∀ p rest off, p.length < 100 →
       fetchAllPages "e" (.ok p :: rest) off = (.ok p, [off])) ∧
     (∀ p rest off, 100 ≤ p.length →
       (fetchAllPages "e" (.ok p :: rest) off).2 =
         off :: (fetchAllPages "e" rest (off + 100)).2)) :=
  ⟨by simp, by simp,
   pagination_loop "e" _ _ _ (by simp) (by simp) (by simp)⟩

/-- C2: with registration enabled, when some key visible to the
duplicate-check listing carries exactly the name `"Goose Hacknight - " + e`,
`POST /api/invite {email: e}` answers 400 with the already-registered
message, issues no creation call, and leaves the upstream unchanged;
conversely the duplicate check reports true exactly when some visible key's
name equals the derived name, by exact case-sensitive string equality. -/
theorem invite_duplicate (env : Env) (cfg : ConfigFile) (u : Upstream)
    (body : JsVal) (cr : CreateResp) (e : String)
    (henabled : (loadConfig cfg).1.getField "registrationEnabled" = .bool true)
    (hemail : body.getField "email" = .str e) (hne : e ≠ "")
    (hdup : ∃ k ∈ visibleKeys u, k.name = expectedName e) :
    (invite env cfg u body cr).resp.status = 400 ∧
    (invite env cfg u body cr).resp.field "message" =
      .str "This email has already been registered for the hackathon." ∧
    (∀ c ∈ (invite env cfg u body cr).calls, c.isCreate = false) ∧
    (invite env cfg u body cr).upstream = u ∧
    (∀ e2, (checkExistingEmail u e2).1 = .ok true ↔
      ∃ k ∈ visibleKeys u, k.name = expectedName e2) := by
  have hany : (visibleKeys u).any (fun k => k.name == expectedName e) = true := by
    simp only [List.any_eq_true, beq_iff_eq]
    obtain ⟨k, hk, hkn⟩ := hdup
    exact ⟨k, hk, hkn⟩
  have hb := invite_eq_of_dup env cfg u body cr e (by rw [henabled]; rfl) hemail hne hany
  rw [hb]
  refine ⟨rfl, rfl, checkExistingEmail_calls u e, rfl, ?_⟩
  intro e2
  rw [checkExistingEmail_fst u e2]
  constructor
  · intro h
    have : (visibleKeys u).any (fun k => k.name == expectedName e2) = true := by
      cases hh : (visibleKeys u).any (fun k => k.name == expectedName e2)
      · rw [hh] at h
        exact absurd h (by simp)
      · rfl
    simpa only [List.any_eq_true, beq_iff_eq] using this
  · intro h
    have : (visibleKeys u).any (fun k => k.name == expectedName e2) = true := by
      simp only [List.any_eq_true, beq_iff_eq]
      exact h
    rw [this]

/-- Witness for C2 at a concrete state holding an enabled key with the
derived name. -/
theorem invite_duplicate_witness :
    (loadConfig (.parsed (.obj [("registrationEnabled", .bool true)]))).1.getField
      "registrationEnabled" = .bool true ∧
    (.obj [("email", .str "a@b.c")] : JsVal).getField "email" = .str "a@b.c" ∧
    "a@b.c" ≠ "" ∧
    (∃ k ∈ visibleKeys ⟨[⟨expectedName "a@b.c", "h1", false⟩]⟩,
      k.name = expectedName "a@b.c") ∧
    ((invite ⟨none, none⟩ (.parsed (.obj [("registrationEnabled", .bool true)]))
        ⟨[⟨expectedName "a@b.c", "h1", false⟩]⟩ (.obj [("email", .str "a@b.c")])
        (.fail "x")).resp.status = 400 ∧
     (invite ⟨none, none⟩ (.parsed (.obj [("registrationEnabled", .bool true)]))
        ⟨[⟨expectedName "a@b.c", "h1", false⟩]⟩ (.obj [("email", .str "a@b.c")])
        (.fail "x")).resp.field "message" =
       .str "This email has already been registered for the hackathon." ∧
     (∀ c ∈ (invite ⟨none, none⟩ (.parsed (.obj [("registrationEnabled", .bool true)]))
        ⟨[⟨expectedName "a@b.c", "h1", false⟩]⟩ (.obj [("email", .str "a@b.c")])
        (.fail "x")).calls, c.isCreate = false) ∧
     (invite ⟨none, none⟩ (.parsed (.obj [("registrationEnabled", .bool true)]))
        ⟨[⟨expectedName "a@b.c", "h1", false⟩]⟩ (.obj [("email", .str "a@b.c")])
        (.fail "x")).upstream = ⟨[⟨expectedName "a@b.c", "h1", false⟩]⟩ ∧
     (∀ e2, (checkExistingEmail ⟨[⟨expectedName "a@b.c", "h1", false⟩]⟩ e2).1 = .ok true ↔
       ∃ k ∈ visibleKeys ⟨[⟨expectedName "a@b.c", "h1", false⟩]⟩,
         k.name = expectedName e2)) :=
  ⟨rfl, rfl, by decide,
   ⟨⟨expectedName "a@b.c", "h1", false⟩, by simp [visibleKeys], rfl⟩,
   invite_duplicate ⟨none, none⟩ (.parsed (.obj [("registrationEnabled", .bool true)]))
     ⟨[⟨expectedName "a@b.c", "h1", false⟩]⟩ (.obj [("email", .str "a@b.c")])
     (.fail "x") "a@b.c" rfl rfl (by decide)
     ⟨⟨expectedName "a@b.c", "h1", false⟩, by simp [visibleKeys], rfl⟩⟩

/-- C3: with registration enabled, a truthy email `e` that no visible key
already carries, and a successful upstream creation returning the secret
`secret`, `POST /api/invite {email: e}` answers 200 with `success: true`, an
`apiKey` equal to the upstream-returned secret (non-empty whenever the secret
is), and a `name` equal to `"Goose Hacknight - " + e`. -/
theorem invite_success (env : Env) (cfg : ConfigFile) (u : Upstream)
    (body : JsVal) (e secret hash : String)
    (henabled : (loadConfig cfg).1.getField "registrationEnabled" = .bool true)
    (hemail : body.getField "email" = .str e) (hne : e ≠ "")
    (hfresh : ∀ k ∈ visibleKeys u, k.name ≠ expectedName e)
    (hsecret : secret ≠ "") :
    (invite env cfg u body (.ok secret hash)).resp.status = 200 ∧
    (invite env cfg u body (.ok secret hash)).resp.field "success" = .bool true ∧
    (invite env cfg u body (.ok secret hash)).resp.field "apiKey" = .str secret ∧
    (invite env cfg u body (.ok secret hash)).resp.field "apiKey" ≠ .str "" ∧
    (invite env cfg u body (.ok secret hash)).resp.field "name" =
      .str (expectedName e) := by
  have hany : (visibleKeys u).any (fun k => k.name == expectedName e) = false := by
    simp only [List.any_eq_false, beq_iff_eq]
    intro k hk
    exact hfresh k hk
  have hb := invite_eq_of_fresh env cfg u body e secret hash
    (by rw [henabled]; rfl) hemail hne hany
  rw [hb]
  refine ⟨rfl, rfl, rfl, ?_, rfl⟩
  intro hcontra
  have : secret = "" := by
    have hf :
        (jsonResp 200 [("success", .bool true), ("apiKey", .str secret),
          ("keyHash", .str hash), ("limit", .num (effLimit env)),
          ("name", .str (expectedName e)), ("disabled", .bool false),
          ("message",
            .str "Your OpenRouter API key has been created successfully.")]).field
          "apiKey" = .str secret := rfl
    rw [hf] at hcontra
    injection hcontra
  exact hsecret this

/-- Witness for C3 at a concrete fresh email and successful creation. -/
theorem invite_success_witness :
    (loadConfig (.parsed (.obj [("registrationEnabled", .bool true)]))).1.getField
      "registrationEnabled" = .bool true ∧
    (.obj [("email", .str "a@b.c")] : JsVal).getField "email" = .str "a@b.c" ∧
    "a@b.c" ≠ "" ∧
    (∀ k ∈ visibleKeys ⟨[]⟩, k.name ≠ expectedName "a@b.c") ∧
    "sk-test" ≠ "" ∧
    ((invite ⟨none, none⟩ (.parsed (.obj [("registrationEnabled", .bool true)]))
        ⟨[]⟩ (.obj [("email", .str "a@b.c")]) (.ok "sk-test" "h2")).resp.status = 200 ∧
     (invite ⟨none, none⟩ (.parsed (.obj [("registrationEnabled", .bool true)]))
        ⟨[]⟩ (.obj [("email", .str "a@b.c")]) (.ok "sk-test" "h2")).resp.field
       "success" = .bool true ∧
     (invite ⟨none, none⟩ (.parsed (.obj [("registrationEnabled", .bool true)]))
        ⟨[]⟩ (.obj [("email", .str "a@b.c")]) (.ok "sk-test" "h2")).resp.field
       "apiKey" = .str "sk-test" ∧
     (invite ⟨none, none⟩ (.parsed (.obj [("registrationEnabled", .bool true)]))
        ⟨[]⟩ (.obj [("email", .str "a@b.c")]) (.ok "sk-test" "h2")).resp.field
       "apiKey" ≠ .str "" ∧
     (invite ⟨none, none⟩ (.parsed (.obj [("registrationEnabled", .bool true)]))
        ⟨[]⟩ (.obj [("email", .str "a@b.c")]) (.ok "sk-test" "h2")).resp.field
       "name" = .str (expectedName "a@b.c")) :=
  ⟨rfl, rfl, by decide, by intro k hk; simp [visibleKeys] at hk, by decide,
   invite_success ⟨none, none⟩ (.parsed (.obj [("registrationEnabled", .bool true)]))
     ⟨[]⟩ (.obj [("email", .str "a@b.c")]) "a@b.c" "sk-test" "h2" rfl rfl
     (by decide) (by intro k hk; simp [visibleKeys] at hk) (by decide)⟩

/-- C6: on each of the three admin routes, a request whose `x-admin-token`
header is absent or differs from the configured admin secret is answered 401
with zero upstream calls and no upstream change; a request carrying exactly
the secret passes the guard and proceeds to the respective handler. -/
theorem admin_auth_guard (env : Env) (s : String) (token : Option String)
    (u : Upstream) (ansD ansX : String → Except String Unit)
    (hs : env.adminSecretToken = some s) :
    (token ≠ some s →
      adminKeys env token u = (unauthorizedResp, []) ∧
      deleteAll env token u ansD = (unauthorizedResp, u, []) ∧
      disableAll env token u ansX = (unauthorizedResp, u, []) ∧
      unauthorizedResp.status = 401) ∧
    (token = some s →
      adminKeys env token u = adminKeysHandler u ∧
      deleteAll env token u ansD = deleteAllHandler u ansD ∧
      disableAll env token u ansX = disableAllHandler u ansX) := by
  constructor
  · intro hne
    have ha : adminAuth env token = false := by
      simp only [adminAuth, hs, beq_eq_false_iff_ne, ne_eq]
      exact hne
    unfold adminKeys deleteAll disableAll
    rw [ha]
    exact ⟨rfl, rfl, rfl, rfl⟩
  · intro heq
    have ha : adminAuth env token = true := by
      simp [adminAuth, hs, heq]
    unfold adminKeys deleteAll disableAll
    rw [ha]
    exact ⟨rfl, rfl, rfl⟩

/-- Witness for C6 at a configured secret "tok", exercised with the absent
header. -/
theorem admin_auth_guard_witness :
    (⟨some "tok", none⟩ : Env).adminSecretToken = some "tok" ∧
    ((none ≠ some "tok" →
      adminKeys ⟨some "tok", none⟩ none ⟨[]⟩ = (unauthorizedResp, []) ∧
      deleteAll ⟨some "tok", none⟩ none ⟨[]⟩ (fun _ => .ok ()) =
        (unauthorizedResp, ⟨[]⟩, []) ∧
      disableAll ⟨some "tok", none⟩ none ⟨[]⟩ (fun _ => .ok ()) =
        (unauthorizedResp, ⟨[]⟩, []) ∧
      unauthorizedResp.status = 401) ∧
     (none = some "tok" →
      adminKeys ⟨some "tok", none⟩ none ⟨[]⟩ = adminKeysHandler ⟨[]⟩ ∧
      deleteAll ⟨some "tok", none⟩ none ⟨[]⟩ (fun _ => .ok ()) =
        deleteAllHandler ⟨[]⟩ (fun _ => .ok ()) ∧
      disableAll ⟨some "tok", none⟩ none ⟨[]⟩ (fun _ => .ok ()) =
        disableAllHandler ⟨[]⟩ (fun _ => .ok ()))) :=
  ⟨rfl, admin_auth_guard ⟨some "tok", none⟩ "tok" none ⟨[]⟩
    (fun _ => .ok ()) (fun _ => .ok ()) rfl⟩

/-- C9: delete-all over the n listed keys. When every individual delete
succeeds the response is 200 with `success: true` and the message
`Successfully deleted n keys`. When any single delete fails, the whole
request is answered by a single 500 whose body is exactly the fixed
three-field failure object carrying only the first failure's message and
naming no individual key — even though every delete call was still issued,
so other deletes may have succeeded silently. -/
theorem deleteAll_all_or_nothing (env : Env) (token : Option String)
    (u : Upstream) (ans : String → Except String Unit)
    (hauth : adminAuth env token = true) :
    ((∀ k ∈ u.keys, exOk (ans k.hash) = true) →
      (deleteAll env token u ans).1.status = 200 ∧
      (deleteAll env token u ans).1.field "success" = .bool true ∧
      (deleteAll env token u ans).1.field "message" =
        .str ("Successfully deleted " ++ toString u.keys.length ++ " keys")) ∧
    ((∃ k ∈ u.keys, exOk (ans k.hash) = false) →
      (deleteAll env token u ans).1.status = 500 ∧
      ∃ m, (deleteAll env token u ans).1.body =
        [("success", .bool false), ("message", .str "Failed to delete keys"),
         ("error", .str m)]) ∧
    (∀ k ∈ u.keys, Call.del k.hash ∈ (deleteAll env token u ans).2.2) := by
  have hred : deleteAll env token u ans = deleteAllHandler u ans := by
    simp [deleteAll, hauth]
  rw [hred]
  have hr := listKeys_fst u
  rcases hl : listKeys u with ⟨r, calls⟩
  rw [hl] at hr
  simp only at hr
  subst hr
  simp only [deleteAllHandler, hl]
  refine ⟨?_, ?_, ?_⟩
  · intro hall
    have hnil : u.keys.filterMap
        (fun k => errOf (deleteKey (ans k.hash) k.hash).1) = [] := by
      rw [List.filterMap_eq_nil_iff]
      intro k hk
      have hok := hall k hk
      cases hx : ans k.hash with
      | ok x => simp [deleteKey, errOf, hx]
      | error st =>
        rw [hx] at hok
        simp [exOk] at hok
    rw [hnil]
    exact ⟨rfl, rfl, rfl⟩
  · intro hex
    rcases hfm : u.keys.filterMap
        (fun k => errOf (deleteKey (ans k.hash) k.hash).1) with _ | ⟨a, l⟩
    · obtain ⟨k, hk, hfk⟩ := hex
      have := (List.filterMap_eq_nil_iff.mp hfm) k hk
      cases hx : ans k.hash with
      | ok x =>
        rw [hx] at hfk
        simp [exOk] at hfk
      | error st =>
        rw [hx] at this
        simp [deleteKey, errOf] at this
    · rw [hfm]
      exact ⟨rfl, a, rfl⟩
  · intro k hk
    rcases hfm : u.keys.filterMap (fun k => errOf (deleteKey (ans k.hash) k.hash).1)
      with _ | ⟨a, l⟩ <;>
      · rw [hfm]
        exact List.mem_append_right _ (List.mem_map_of_mem _ hk)

/-- Witness for C9 at a two-key state whose second delete fails. -/
theorem deleteAll_all_or_nothing_witness :
    adminAuth ⟨some "t", none⟩ (some "t") = true ∧
    (((∀ k ∈ (⟨[⟨"n1", "h1", false⟩, ⟨"n2", "h2", false⟩]⟩ : Upstream).keys,
        exOk ((fun h => if h == "h2" then .error "boom" else .ok ()) k.hash) = true) →
      (deleteAll ⟨some "t", none⟩ (some "t") ⟨[⟨"n1", "h1", false⟩, ⟨"n2", "h2", false⟩]⟩
        (fun h => if h == "h2" then .error "boom" else .ok ())).1.status = 200 ∧
      (deleteAll ⟨some "t", none⟩ (some "t") ⟨[⟨"n1", "h1", false⟩, ⟨"n2", "h2", false⟩]⟩
        (fun h => if h == "h2" then .error "boom" else .ok ())).1.field "success" =
        .bool true ∧
      (deleteAll ⟨some "t", none⟩ (some "t") ⟨[⟨"n1", "h1", false⟩, ⟨"n2", "h2", false⟩]⟩
        (fun h => if h == "h2" then .error "boom" else .ok ())).1.field "message" =
        .str ("Successfully deleted " ++
          toString (⟨[⟨"n1", "h1", false⟩, ⟨"n2", "h2", false⟩]⟩ : Upstream).keys.length
          ++ " keys")) ∧
    ((∃ k ∈ (⟨[⟨"n1", "h1", false⟩, ⟨"n2", "h2", false⟩]⟩ : Upstream).keys,
        exOk ((fun h => if h == "h2" then .error "boom" else .ok ()) k.hash) = false) →
      (deleteAll ⟨some "t", none⟩ (some "t") ⟨[⟨"n1", "h1", false⟩, ⟨"n2", "h2", false⟩]⟩
        (fun h => if h == "h2" then .error "boom" else .ok ())).1.status = 500 ∧
      ∃ m, (deleteAll ⟨some "t", none⟩ (some "t")
          ⟨[⟨"n1", "h1", false⟩, ⟨"n2", "h2", false⟩]⟩
          (fun h => if h == "h2" then .error "boom" else .ok ())).1.body =
        [("success", .bool false), ("message", .str "Failed to delete keys"),
         ("error", .str m)]) ∧
    (∀ k ∈ (⟨[⟨"n1", "h1", false⟩, ⟨"n2", "h2", false⟩]⟩ : Upstream).keys,
      Call.del k.hash ∈ (deleteAll ⟨some "t", none⟩ (some "t")
        ⟨[⟨"n1", "h1", false⟩, ⟨"n2", "h2", false⟩]⟩
        (fun h => if h == "h2" then .error "boom" else .ok ())).2.2)) :=
  ⟨rfl, deleteAll_all_or_nothing ⟨some "t", none⟩ (some "t")
    ⟨[⟨"n1", "h1", false⟩, ⟨"n2", "h2", false⟩]⟩
    (fun h => if h == "h2" then .error "boom" else .ok ()) rfl⟩

/-- C8: disable-all over a listing whose disable operation fails on some keys
and succeeds on others still attempts to disable every listed key (no single
failure aborts the batch), then re-lists and answers 200 with the fresh
listing — keys whose disable succeeded now disabled, failed ones unchanged —
and a message counting all processed keys. -/
theorem disableAll_tolerant (env : Env) (token : Option String) (u : Upstream)
    (ans : String → Except String Unit)
    (hauth : adminAuth env token = true)
    (hmix : (∃ k ∈ u.keys, exOk (ans k.hash) = false) ∧
      ∃ k ∈ u.keys, exOk (ans k.hash) = true) :
    (∀ k ∈ u.keys, Call.disable k.hash ∈ (disableAll env token u ans).2.2) ∧
    (disableAll env token u ans).1.status = 200 ∧
    (disableAll env token u ans).1.field "message" =
      .str ("Successfully processed " ++ toString u.keys.length ++ " keys") ∧
    (disableAll env token u ans).2.1 =
      ⟨u.keys.map (fun k => if exOk (ans k.hash) then { k with disabled := true } else k)⟩ ∧
    (disableAll env token u ans).1.field "data" =
      .arr ((u.keys.map
        (fun k => if exOk (ans k.hash) then { k with disabled := true } else k)).map
          keyToJs) := by
  clear hmix
  have hred : disableAll env token u ans = disableAllHandler u ans := by
    simp [disableAll, hauth]
  rw [hred]
  have hr := listKeys_fst u
  rcases hl : listKeys u with ⟨r, calls⟩
  rw [hl] at hr
  simp only at hr
  subst hr
  have hr2 := listKeys_fst
    ⟨u.keys.map (fun k => if exOk (ans k.hash) then { k with disabled := true } else k)⟩
  rcases hl2 : listKeys
      ⟨u.keys.map (fun k => if exOk (ans k.hash) then { k with disabled := true } else k)⟩
    with ⟨r2, calls2⟩
  rw [hl2] at hr2
  simp only at hr2
  subst hr2
  simp only [disableAllHandler, hl, hl2]
  refine ⟨fun k hk => List.mem_append_left _
    (List.mem_append_right _ (List.mem_map_of_mem _ hk)), ?_, ?_, ?_, ?_⟩ <;>
      first | rfl | trivial

/-- Witness for C8 at a two-key state whose first disable fails and second
succeeds. -/
theorem disableAll_tolerant_witness :
    adminAuth ⟨some "t", none⟩ (some "t") = true ∧
    ((∃ k ∈ (⟨[⟨"n1", "h1", false⟩, ⟨"n2", "h2", false⟩]⟩ : Upstream).keys,
        exOk ((fun h => if h == "h1" then .error "boom" else .ok ()) k.hash) = false) ∧
      ∃ k ∈ (⟨[⟨"n1", "h1", false⟩, ⟨"n2", "h2", false⟩]⟩ : Upstream).keys,
        exOk ((fun h => if h == "h1" then .error "boom" else .ok ()) k.hash) = true) ∧
    ((∀ k ∈ (⟨[⟨"n1", "h1", false⟩, ⟨"n2", "h2", false⟩]⟩ : Upstream).keys,
        Call.disable k.hash ∈ (disableAll ⟨some "t", none⟩ (some "t")
          ⟨[⟨"n1", "h1", false⟩, ⟨"n2", "h2", false⟩]⟩
          (fun h => if h == "h1" then .error "boom" else .ok ())).2.2) ∧
     (disableAll ⟨some "t", none⟩ (some "t")
        ⟨[⟨"n1", "h1", false⟩, ⟨"n2", "h2", false⟩]⟩
        (fun h => if h == "h1" then .error "boom" else .ok ())).1.status = 200 ∧
     (disableAll ⟨some "t", none⟩ (some "t")
        ⟨[⟨"n1", "h1", false⟩, ⟨"n2", "h2", false⟩]⟩
        (fun h => if h == "h1" then .error "boom" else .ok ())).1.field "message" =
       .str ("Successfully processed " ++
         toString (⟨[⟨"n1", "h1", false⟩, ⟨"n2", "h2", false⟩]⟩ : Upstream).keys.length
         ++ " keys") ∧
     (disableAll ⟨some "t", none⟩ (some "t")
        ⟨[⟨"n1", "h1", false⟩, ⟨"n2", "h2", false⟩]⟩
        (fun h => if h == "h1" then .error "boom" else .ok ())).2.1 =
       ⟨(⟨[⟨"n1", "h1", false⟩, ⟨"n2", "h2", false⟩]⟩ : Upstream).keys.map
         (fun k => if exOk ((fun h => if h == "h1" then .error "boom" else .ok ()) k.hash)
           then { k with disabled := true } else k)⟩ ∧
     (disableAll ⟨some "t", none⟩ (some "t")
        ⟨[⟨"n1", "h1", false⟩, ⟨"n2", "h2", false⟩]⟩
        (fun h => if h == "h1" then .error "boom" else .ok ())).1.field "data" =
       .arr (((⟨[⟨"n1", "h1", false⟩, ⟨"n2", "h2", false⟩]⟩ : Upstream).keys.map
         (fun k => if exOk ((fun h => if h == "h1" then .error "boom" else .ok ()) k.hash)
           then { k with disabled := true } else k)).map keyToJs)) :=
  ⟨rfl, ⟨⟨⟨"n1", "h1", false⟩, by simp, rfl⟩, ⟨⟨"n2", "h2", false⟩, by simp, rfl⟩⟩,
   disableAll_tolerant ⟨some "t", none⟩ (some "t")
     ⟨[⟨"n1", "h1", false⟩, ⟨"n2", "h2", false⟩]⟩
     (fun h => if h == "h1" then .error "boom" else .ok ()) rfl
     ⟨⟨⟨"n1", "h1", false⟩, by simp, rfl⟩, ⟨⟨"n2", "h2", false⟩, by simp, rfl⟩⟩⟩

/-- The invite handler changes the upstream state only in the
fresh-email-and-successful-creation branch, where it appends one enabled key
carrying the derived name — and that branch is reached only when the
duplicate check over the visible (enabled) keys found no key with that
name. -/
theorem invite_upstream_cases (env : Env) (cfg : ConfigFile) (u : Upstream)
    (body : JsVal) (cr : CreateResp) :
    (invite env cfg u body cr).upstream = u ∨
    ((visibleKeys u).any
        (fun k => k.name == expectedName (body.getField "email").toStr) = false ∧
      ∃ hash, (invite env cfg u body cr).upstream =
        ⟨u.keys ++ [⟨expectedName (body.getField "email").toStr, hash, false⟩]⟩) := by
  unfold invite
  split
  · exact Or.inl rfl
  split
  · exact Or.inl rfl
  split
  · exact Or.inl rfl
  · exact Or.inl rfl
  · rename_i calls heq
    have hf := checkExistingEmail_fst u (body.getField "email").toStr
    rw [heq] at hf
    simp only at hf
    split
    · rename_i kd calls2 heq2
      have hfa : ((visibleKeys u).any
          fun k => k.name == expectedName (body.getField "email").toStr) = false := by
        injection hf with hh
        exact hh.symm
      exact Or.inr ⟨hfa, kd.keyHash, rfl⟩
    · exact Or.inl rfl

/-- One invite request preserves "at most one enabled key per email". -/
theorem invite_preserves_enabled (env : Env) (cfg : ConfigFile) (u : Upstream)
    (body : JsVal) (cr : CreateResp) (h : atMostOneEnabledPerEmail u) :
    atMostOneEnabledPerEmail (invite env cfg u body cr).upstream := by
  rcases invite_upstream_cases env cfg u body cr with heq | ⟨hany, hash, heq⟩
  · rw [heq]
    exact h
  · rw [heq]
    intro e2
    have hnone : ∀ k ∈ visibleKeys u,
        k.name ≠ expectedName (body.getField "email").toStr := by
      intro k hk
      have := List.any_eq_false.mp hany k hk
      simpa using this
    simp only [countEnabledFor, visibleKeys, List.filter_append, List.length_append]
    by_cases hname : expectedName (body.getField "email").toStr = expectedName e2
    · have hz : ((u.keys.filter (fun k => !k.disabled)).filter
          (fun k => k.name == expectedName e2)).length = 0 := by
        rw [List.length_eq_zero, List.filter_eq_nil_iff]
        intro k hk
        have hne := hnone k hk
        rw [hname] at hne
        simp [hne]
      rw [hz]
      simp [hname]
    · have hz2 : (([(⟨expectedName (body.getField "email").toStr, hash, false⟩ :
          KeyInfo)].filter (fun k => !k.disabled)).filter
            (fun k => k.name == expectedName e2)).length = 0 := by
        simp [hname]
      rw [hz2]
      have := h e2
      simpa [countEnabledFor, visibleKeys] using this

/-- C5 amended: for every sequence of sequentially executed invite operations
starting from an upstream state with at most one enabled key per email, the
state after each operation (each prefix of the sequence) still has at most
one enabled key per email. The guarantee covers only enabled keys: the
duplicate check lists keys without `include_disabled`, so a disabled key does
not block a second key for the same email. -/
theorem runInvites_preserves_enabled (env : Env) (cfg : ConfigFile) (u : Upstream)
    (ops : List (JsVal × CreateResp)) (h : atMostOneEnabledPerEmail u) :
    ∀ n, atMostOneEnabledPerEmail (runInvites env cfg u (ops.take n)) := by
  induction ops generalizing cfg u with
  | nil =>
    intro n
    rw [List.take_nil]
    exact h
  | cons op rest ih =>
    intro n
    cases n with
    | zero =>
      rw [List.take_zero]
      exact h
    | succ m =>
      rcases op with ⟨body, cr⟩
      rw [List.take_succ_cons]
      exact ih (invite env cfg u body cr).configFile
        (invite env cfg u body cr).upstream
        (invite_preserves_enabled env cfg u body cr h) m

/-- Witness for C5 amended: one concrete invite executed from the empty
upstream state. -/
theorem runInvites_preserves_enabled_witness :
    atMostOneEnabledPerEmail ⟨[]⟩ ∧
    ∀ n, atMostOneEnabledPerEmail (runInvites ⟨none, none⟩
      (.parsed (.obj [("registrationEnabled", .bool true)])) ⟨[]⟩
      (([(.obj [("email", .str "a@b.c")], .ok "sk-test" "h2")] :
        List (JsVal × CreateResp)).take n)) :=
  ⟨fun _ => Nat.zero_le 1,
   runInvites_preserves_enabled ⟨none, none⟩
     (.parsed (.obj [("registrationEnabled", .bool true)])) ⟨[]⟩
     [(.obj [("email", .str "a@b.c")], .ok "sk-test" "h2")]
     (fun _ => Nat.zero_le 1)⟩

/-- C5 counterexample: the claim fails on states holding a disabled key for
the email. The initial state has exactly one key for `a@b.c` — disabled — so
"at most one ProvisionedKey per email" holds; one invite for `a@b.c`
succeeds (the duplicate-check listing omits disabled keys) and the state
afterwards holds two keys for that email. -/
theorem invite_disabled_dup_cex :
    atMostOnePerEmail ⟨[⟨expectedName "a@b.c", "h1", true⟩]⟩ ∧
    ¬ atMostOnePerEmail (runInvites ⟨none, none⟩
        (.parsed (.obj [("registrationEnabled", .bool true)]))
        ⟨[⟨expectedName "a@b.c", "h1", true⟩]⟩
        [(.obj [("email", .str "a@b.c")], .ok "sk-test" "h2")]) := by
  constructor
  · intro e
    exact le_trans (List.length_filter_le _ _) (by simp)
  · intro hinv
    have hb := invite_eq_of_fresh ⟨none, none⟩
      (.parsed (.obj [("registrationEnabled", .bool true)]))
      ⟨[⟨expectedName "a@b.c", "h1", true⟩]⟩
      (.obj [("email", .str "a@b.c")]) "a@b.c" "sk-test" "h2"
      rfl rfl (by decide) rfl
    have hrun : runInvites ⟨none, none⟩
        (.parsed (.obj [("registrationEnabled", .bool true)]))
        ⟨[⟨expectedName "a@b.c", "h1", true⟩]⟩
        [(.obj [("email", .str "a@b.c")], .ok "sk-test" "h2")] =
        ⟨[⟨expectedName "a@b.c", "h1", true⟩, ⟨expectedName "a@b.c", "h2", false⟩]⟩ := by
      simp only [runInvites, hb]
      rfl
    have h2 := hinv "a@b.c"
    rw [hrun] at h2
    have : countFor
        ⟨[⟨expectedName "a@b.c", "h1", true⟩, ⟨expectedName "a@b.c", "h2", false⟩]⟩
        "a@b.c" = 2 := rfl
    omega

end Goose
